import Mathlib

/-!
# Verification of the blob storage layer of stdlib-golang-api

Shallow embedding of `internal/blob/filesystem.go` (`FileSystemStore`) and
`internal/blob/blob.go` (`S3Store`), together with the Go standard-library
string/path functions they call (`filepath.Clean`, `filepath.IsAbs`,
`filepath.Ext`, `strings.HasPrefix`, `strings.ToLower`, byte-wise string
comparison) and the MD5 content hash (`crypto/md5` + `encoding/hex`) used by
`FileSystemStore.Upload` to produce ETags.

Modelling conventions:
* Go strings are Lean `String`s; Go's byte-wise lexicographic comparison on
  UTF-8 strings coincides with the lexicographic order on their code-point
  lists, so `key <= startAfter` is modelled as `key.data ≤ startAfter.data`.
* Byte payloads are `List Nat` (each element a byte value).
* The file system is modelled at the object level as a finite association map
  from root-relative, slash-separated paths to byte contents, plus a separate
  map of live temporary files.  `basePath` is a fixed prefix of every physical
  path; the model indexes storage by the root-relative cleaned key, which is
  exactly what `filepath.Rel(basePath, path)` + `filepath.ToSlash` recovers in
  `List`.  Directories are implicit (both "absent" and "is a directory" stat
  outcomes surface as not-found in `HeadObject`).
* Machine integers (`int64`, `int32`, MD5's `uint32` words) are `Int`/`Nat`
  with explicit `% 2^32` where overflow matters.
* Wall-clock data (`LastModified`) and the logger are omitted: they carry no
  information the specification claims depend on.
* The S3 network is an oracle parameter: each networked operation takes the
  response of its single SDK call as an explicit argument, and additionally
  reports whether the network was reached (`Bool`), so that "rejected before
  any I/O" is expressible.
* Go `error` results are modelled by the `BlobErr` taxonomy (the sentinels of
  `internal/domain`); `fmt.Errorf("%w: %v", sentinel, cause)` wrapping keeps
  the cause as the constructor argument.
-/

set_option maxRecDepth 1000000

/-! ## Go string and path primitives -/

/-- `strings.HasPrefix`-style prefix test on raw character lists. -/
def listIsPre : List Char → List Char → Bool
  | [], _ => true
  | _ :: _, [] => false
  | a :: as, b :: bs => a == b && listIsPre as bs

/-- `strings.HasPrefix s pre` (argument order: subject first, like Go). -/
def goHasPre (s pre : String) : Bool :=
  listIsPre pre.data s.data

/-- Split a path into its `/`-separated segments. -/
def splitSlashAux : List Char → List Char → List String
  | [], cur => [String.mk cur.reverse]
  | c :: rest, cur =>
    if c = '/' then String.mk cur.reverse :: splitSlashAux rest []
    else splitSlashAux rest (c :: cur)

def splitSlash (s : String) : List String :=
  splitSlashAux s.data []

/-- Core of Go's `filepath.Clean` (Unix separators): process the segments,
dropping empty and `.` segments, resolving `..` against the output stack
(popping a normal segment, collapsing at the root when `rooted`, and keeping
leading `..`s when not rooted).  The accumulator is kept reversed. -/
def cleanSegs (rooted : Bool) : List String → List String → List String
  | [], acc => acc.reverse
  | seg :: rest, acc =>
    if seg = "" || seg = "." then cleanSegs rooted rest acc
    else if seg = ".." then
      match acc with
      | [] => if rooted then cleanSegs rooted rest [] else cleanSegs rooted rest [".."]
      | top :: acc2 =>
        if top = ".." then cleanSegs rooted rest (".." :: top :: acc2)
        else cleanSegs rooted rest acc2
    else cleanSegs rooted rest (seg :: acc)

def joinSlash : List String → String
  | [] => ""
  | [x] => x
  | x :: xs => x ++ "/" ++ joinSlash xs

/-- Go's `filepath.Clean` on Unix. -/
def goClean (path : String) : String :=
  if path = "" then "." else
  let rooted := goHasPre path ("/")
  let segs := cleanSegs rooted (splitSlash path) []
  if segs = [] then (if rooted then "/" else ".")
  else (if rooted then "/" ++ joinSlash segs else joinSlash segs)

/-- Go's `filepath.IsAbs` on Unix. -/
def goIsAbs (s : String) : Bool :=
  goHasPre s ("/")

/-- Scan a reversed character list for the extension: stop at `/`, succeed at
the first `.` found. -/
def goExtRevAux : List Char → List Char → Option (List Char)
  | [], _ => none
  | c :: rest, acc =>
    if c = '/' then none
    else if c = '.' then some (c :: acc)
    else goExtRevAux rest (c :: acc)

/-- Go's `filepath.Ext`: the suffix beginning at the final dot in the final
slash-separated element, or `""` if there is no dot. -/
def goExt (s : String) : String :=
  match goExtRevAux s.data.reverse [] with
  | some cs => String.mk cs
  | none => ""

/-- `strings.ToLower` (ASCII-relevant part is all the table needs). -/
def goToLower (s : String) : String :=
  String.mk (s.data.map Char.toLower)

/-- `detectContentType` (filesystem.go): lowercase extension lookup against
the static table, defaulting to `application/octet-stream`. -/
def detectContentType (filename : String) : String :=
  let ext := goToLower (goExt filename)
  if ext = ".html" then "text/html"
  else if ext = ".htm" then "text/html"
  else if ext = ".css" then "text/css"
  else if ext = ".js" then "application/javascript"
  else if ext = ".json" then "application/json"
  else if ext = ".xml" then "application/xml"
  else if ext = ".txt" then "text/plain"
  else if ext = ".md" then "text/markdown"
  else if ext = ".pdf" then "application/pdf"
  else if ext = ".zip" then "application/zip"
  else if ext = ".tar" then "application/x-tar"
  else if ext = ".gz" then "application/gzip"
  else if ext = ".png" then "image/png"
  else if ext = ".jpg" then "image/jpeg"
  else if ext = ".jpeg" then "image/jpeg"
  else if ext = ".gif" then "image/gif"
  else if ext = ".svg" then "image/svg+xml"
  else if ext = ".webp" then "image/webp"
  else if ext = ".ico" then "image/x-icon"
  else if ext = ".mp3" then "audio/mpeg"
  else if ext = ".mp4" then "video/mp4"
  else if ext = ".webm" then "video/webm"
  else if ext = ".wasm" then "application/wasm"
  else "application/octet-stream"

/-- Byte-wise Go string comparison, as order on code-point lists. -/
def goStrLe (a b : String) : Prop :=
  a.data ≤ b.data

instance (a b : String) : Decidable (goStrLe a b) := by
  unfold goStrLe; infer_instance

/-- `io.WriterAt` semantics used by `Download`: overwrite `d` into `sink`
starting at byte offset `off`. -/
def writeAt (sink : List Nat) (off : Nat) (d : List Nat) : List Nat :=
  sink.take off ++ d ++ sink.drop (off + d.length)

/-! ## MD5 (`crypto/md5`), over byte lists, words as `Nat` mod `2^32` -/

def md5K : List Nat :=
  [0xd76aa478, 0xe8c7b756, 0x242070db, 0xc1bdceee,
   0xf57c0faf, 0x4787c62a, 0xa8304613, 0xfd469501,
   0x698098d8, 0x8b44f7af, 0xffff5bb1, 0x895cd7be,
   0x6b901122, 0xfd987193, 0xa679438e, 0x49b40821,
   0xf61e2562, 0xc040b340, 0x265e5a51, 0xe9b6c7aa,
   0xd62f105d, 0x02441453, 0xd8a1e681, 0xe7d3fbc8,
   0x21e1cde6, 0xc33707d6, 0xf4d50d87, 0x455a14ed,
   0xa9e3e905, 0xfcefa3f8, 0x676f02d9, 0x8d2a4c8a,
   0xfffa3942, 0x8771f681, 0x6d9d6122, 0xfde5380c,
   0xa4beea44, 0x4bdecfa9, 0xf6bb4b60, 0xbebfbc70,
   0x289b7ec6, 0xeaa127fa, 0xd4ef3085, 0x04881d05,
   0xd9d4d039, 0xe6db99e5, 0x1fa27cf8, 0xc4ac5665,
   0xf4292244, 0x432aff97, 0xab9423a7, 0xfc93a039,
   0x655b59c3, 0x8f0ccc92, 0xffeff47d, 0x85845dd1,
   0x6fa87e4f, 0xfe2ce6e0, 0xa3014314, 0x4e0811a1,
   0xf7537e82, 0xbd3af235, 0x2ad7d2bb, 0xeb86d391]

def md5S : List Nat :=
  [7, 12, 17, 22, 7, 12, 17, 22, 7, 12, 17, 22, 7, 12, 17, 22,
   5, 9, 14, 20, 5, 9, 14, 20, 5, 9, 14, 20, 5, 9, 14, 20,
   4, 11, 16, 23, 4, 11, 16, 23, 4, 11, 16, 23, 4, 11, 16, 23,
   6, 10, 15, 21, 6, 10, 15, 21, 6, 10, 15, 21, 6, 10, 15, 21]

/-- Rotate a 32-bit word (represented as `Nat < 2^32`) left by `c`. -/
def rotl32 (x c : Nat) : Nat :=
  ((x <<< c) % 4294967296) ||| (x >>> (32 - c))

/-- MD5 padding: `0x80`, zeros to 56 mod 64, then the 64-bit little-endian
bit length. -/
def md5pad (msg : List Nat) : List Nat :=
  let bitLen := 8 * msg.length
  let zeros := (56 + 64 - (msg.length + 1) % 64) % 64
  msg ++ [0x80] ++ List.replicate zeros 0 ++
    (List.range 8).map (fun i => bitLen / 2 ^ (8 * i) % 256)

/-- The sixteen little-endian 32-bit words of one 64-byte block. -/
def blockWords (block : List Nat) : List Nat :=
  (List.range 16).map fun j =>
    block.getD (4 * j) 0 + 256 * block.getD (4 * j + 1) 0 +
      65536 * block.getD (4 * j + 2) 0 + 16777216 * block.getD (4 * j + 3) 0

/-- One of the 64 MD5 rounds on state `(a, b, c, d)`. -/
def md5Round (m : List Nat) (st : Nat × Nat × Nat × Nat) (i : Nat) :
    Nat × Nat × Nat × Nat :=
  let a := st.1
  let b := st.2.1
  let c := st.2.2.1
  let d := st.2.2.2
  let mask := 4294967295
  let f :=
    if i < 16 then (b &&& c) ||| ((mask ^^^ b) &&& d)
    else if i < 32 then (d &&& b) ||| ((mask ^^^ d) &&& c)
    else if i < 48 then b ^^^ c ^^^ d
    else c ^^^ (b ||| (mask ^^^ d))
  let g :=
    if i < 16 then i
    else if i < 32 then (5 * i + 1) % 16
    else if i < 48 then (3 * i + 5) % 16
    else 7 * i % 16
  let t := (a + f + md5K.getD i 0 + m.getD g 0) % 4294967296
  (d, (b + rotl32 t (md5S.getD i 0)) % 4294967296, b, c)

/-- Absorb one 64-byte block into the running state. -/
def md5Block (st : Nat × Nat × Nat × Nat) (block : List Nat) :
    Nat × Nat × Nat × Nat :=
  let m := blockWords block
  let r := (List.range 64).foldl (md5Round m) st
  ((st.1 + r.1) % 4294967296, (st.2.1 + r.2.1) % 4294967296,
   (st.2.2.1 + r.2.2.1) % 4294967296, (st.2.2.2 + r.2.2.2) % 4294967296)

/-- Split a (padded) byte list into 64-byte blocks.  Structural recursion on
a fuel bounded by the list length, so that the kernel can evaluate it. -/
def chunks64Fuel : Nat → List Nat → List (List Nat)
  | _, [] => []
  | 0, _ :: _ => []
  | fuel + 1, l => l.take 64 :: chunks64Fuel fuel (l.drop 64)

def chunks64 (l : List Nat) : List (List Nat) :=
  chunks64Fuel l.length l

/-- Little-endian bytes of a 32-bit word. -/
def wordLEBytes (w : Nat) : List Nat :=
  [w % 256, w / 256 % 256, w / 65536 % 256, w / 16777216 % 256]

/-- `md5.Sum` digest bytes of a message. -/
def md5bytes (msg : List Nat) : List Nat :=
  let r := (chunks64 (md5pad msg)).foldl md5Block
    (0x67452301, 0xefcdab89, 0x98badcfe, 0x10325476)
  wordLEBytes r.1 ++ wordLEBytes r.2.1 ++ wordLEBytes r.2.2.1 ++ wordLEBytes r.2.2.2

def hexChar (n : Nat) : Char :=
  List.getD ("0123456789abcdef").data n '0'

def byteHex (b : Nat) : List Char :=
  [hexChar (b / 16), hexChar (b % 16)]

/-- `hex.EncodeToString(md5.Sum(msg))`: the lowercase hex digest. -/
def md5hex (msg : List Nat) : String :=
  String.mk ((md5bytes msg).foldr (fun b acc => byteHex b ++ acc) [])

/-! ## Shared data model (`internal/blob/blob.go`) and error taxonomy
(`internal/domain`, part of the unnamed domain error file) -/

/-- The error sentinels of `internal/domain` relevant to the blob layer.
`ε` is the type of the wrapped underlying cause (`%v` in
`fmt.Errorf("%w: %v", sentinel, cause)`): OS error text for the local
backend, an `S3ApiErr` for the networked one.  `ctxCanceled` stands for the
`context.Canceled` / deadline errors returned raw by `ctx.Err()`. -/
inductive BlobErr (ε : Type) where
  | invalidBlobKey
  | invalidInput
  | blobNotFound
  | uploadFailed (cause : ε)
  | downloadFailed (cause : ε)
  | deleteFailed (cause : Option ε)
  | otherFailure (msg : String) (cause : ε)
  | ctxCanceled
deriving DecidableEq, Repr

/-- `blob.ObjectInfo`.  `LastModified` (wall-clock) and `Metadata` (never set
by the local backend) are omitted from the model. -/
structure ObjectInfo where
  key : String
  size : Int
  contentType : String
  etag : String
deriving DecidableEq, Repr

/-- `blob.UploadInput`.  The body is `Option`al to model Go's `nil` reader. -/
structure UploadInput where
  key : String
  body : Option (List Nat)
  contentType : String
  metadata : List (String × String)
deriving DecidableEq, Repr

/-- `blob.UploadOutput`. -/
structure UploadOutput where
  location : String
  versionID : String
  etag : String
deriving DecidableEq, Repr

/-- `blob.ListInput`.  `pfx` is the Go field `Prefix` (a Lean keyword).
`maxKeys` is Go `int32`. -/
structure ListInput where
  pfx : String
  maxKeys : Int
  startAfter : String
deriving DecidableEq, Repr

/-- `blob.ListOutput`. -/
structure ListOutput where
  objects : List ObjectInfo
  isTruncated : Bool
  nextMarker : String
deriving DecidableEq, Repr

/-! ## Local backend state: association maps keyed by root-relative path -/

def fsGet : List (String × List Nat) → String → Option (List Nat)
  | [], _ => none
  | kv :: rest, k => if kv.1 = k then some kv.2 else fsGet rest k

def fsSet : List (String × List Nat) → String → List Nat → List (String × List Nat)
  | [], k, v => [(k, v)]
  | kv :: rest, k, v => if kv.1 = k then (k, v) :: rest else kv :: fsSet rest k v

def fsRemove : List (String × List Nat) → String → List (String × List Nat)
  | [], _ => []
  | kv :: rest, k => if kv.1 = k then rest else kv :: fsRemove rest k

/-- The observable state of a `FileSystemStore` rooted at `basePath`:
regular files by root-relative slash path, and live `.tmp-*` files (present
only while an `Upload` is in flight; every operation leaves it empty). -/
structure FsState where
  files : List (String × List Nat)
  temps : List (String × List Nat)
deriving DecidableEq, Repr

/-! ## FileSystemStore (`internal/blob/filesystem.go`) -/

/-- `FileSystemStore.fullPath`: reject empty keys, then clean the key and
reject it when the cleaned key escapes the root (`strings.HasPrefix(clean,
"..")`) or is absolute.  Both rejections are `domain.ErrInvalidBlobKey`
(the second is the wrapped form `"%w: invalid key path"`).  On success the
physical path is `filepath.Join(basePath, cleanKey)`; since `basePath` is a
fixed absolute prefix, the model returns the root-relative `cleanKey` as the
storage index. -/
def FileSystemStore.fullPath (key : String) : Except (BlobErr String) String :=
  if key = "" then .error .invalidBlobKey
  else
    let cleanKey := goClean key
    if goHasPre cleanKey ("..") || goIsAbs cleanKey then .error .invalidBlobKey
    else .ok cleanKey

/-- The failure injection points of `FileSystemStore.Upload` named by the
specification: `os.CreateTemp`, the `io.Copy` into the temp file (failing
after `n` bytes were written), `tmpFile.Close`, and `os.Rename`. -/
inductive UploadFault where
  | noFault
  | tempCreate
  | copyAt (n : Nat)
  | closeTmp
  | renameFinal
deriving DecidableEq, Repr

/-- `FileSystemStore.Upload`.  Control flow mirrors the source: empty-key
check, nil-body check, `fullPath`, `os.MkdirAll` (implicit in the flat
model), the `ctx.Err()` check, then under the lock: create a temp file,
copy the body into it while hashing with MD5, close, and atomically rename
onto the final path.  The deferred `tmpFile.Close(); os.Remove(tmpPath)`
makes every failure path drop the temp file.  `tmpName` stands for the
random name `os.CreateTemp(dir, ".tmp-*")` picked. -/
def FileSystemStore.Upload (s : FsState) (input : UploadInput)
    (ctxCanceled : Bool) (tmpName : String) (fault : UploadFault) :
    Except (BlobErr String) UploadOutput × FsState :=
  if input.key = "" then (.error .invalidBlobKey, s)
  else
    match input.body with
    | none => (.error .invalidInput, s)
    | some body =>
      match FileSystemStore.fullPath input.key with
      | .error e => (.error e, s)
      | .ok p =>
        -- os.MkdirAll(dir, 0755): directories are implicit in the model
        if ctxCanceled then (.error .ctxCanceled, s)
        else
          match fault with
          | .tempCreate =>
            (.error (.uploadFailed ("create temp file")), s)
          | .copyAt n =>
            -- the temp file held the first n bytes, then the deferred
            -- os.Remove(tmpPath) dropped it
            let s1 : FsState := ⟨s.files, fsSet s.temps tmpName (body.take n)⟩
            (.error (.uploadFailed ("write file")),
              ⟨s1.files, fsRemove s1.temps tmpName⟩)
          | .closeTmp =>
            let s1 : FsState := ⟨s.files, fsSet s.temps tmpName body⟩
            (.error (.uploadFailed ("close temp file")),
              ⟨s1.files, fsRemove s1.temps tmpName⟩)
          | .renameFinal =>
            let s1 : FsState := ⟨s.files, fsSet s.temps tmpName body⟩
            (.error (.uploadFailed ("rename temp file")),
              ⟨s1.files, fsRemove s1.temps tmpName⟩)
          | .noFault =>
            -- os.Rename(tmpPath, fullPath): the full body moves onto the
            -- final path in one atomic step; deferred os.Remove is a no-op
            let s1 : FsState := ⟨s.files, fsSet s.temps tmpName body⟩
            (.ok ⟨p, "", md5hex body⟩,
              ⟨fsSet s1.files p body, fsRemove s1.temps tmpName⟩)

/-- `FileSystemStore.Download`: `fullPath`, `os.Open` (not-found check),
`ctx.Err()` check, `io.ReadAll`, then one `w.WriteAt(data, 0)` whose byte
count is returned. -/
def FileSystemStore.Download (s : FsState) (key : String) (sink : List Nat)
    (ctxCanceled : Bool) : Except (BlobErr String) (Int × List Nat) :=
  match FileSystemStore.fullPath key with
  | .error e => .error e
  | .ok p =>
    match fsGet s.files p with
    | none => .error .blobNotFound
    | some d =>
      if ctxCanceled then .error .ctxCanceled
      else .ok (Int.ofNat d.length, writeAt sink 0 d)

/-- `FileSystemStore.GetObject`: `fullPath`, `os.Open`, return the readable
content (the model returns the bytes the caller would read). -/
def FileSystemStore.GetObject (s : FsState) (key : String) :
    Except (BlobErr String) (List Nat) :=
  match FileSystemStore.fullPath key with
  | .error e => .error e
  | .ok p =>
    match fsGet s.files p with
    | none => .error .blobNotFound
    | some d => .ok d

/-- `FileSystemStore.HeadObject`: `fullPath`, `os.Stat`.  A missing path and
a directory path both surface as `domain.ErrBlobNotFound`; the model's flat
map has no entry in either case.  The returned info carries the caller's
(unsanitized) key, the byte size, the extension-derived content type, and —
notably — no ETag (the Go struct literal leaves `ETag` at its zero value). -/
def FileSystemStore.HeadObject (s : FsState) (key : String) :
    Except (BlobErr String) ObjectInfo :=
  match FileSystemStore.fullPath key with
  | .error e => .error e
  | .ok p =>
    match fsGet s.files p with
    | none => .error .blobNotFound
    | some d => .ok ⟨key, Int.ofNat d.length, detectContentType key, ""⟩

/-- `FileSystemStore.Delete`: `fullPath`, `os.Remove`; removing a missing
file is success (idempotent). -/
def FileSystemStore.Delete (s : FsState) (key : String) :
    Option (BlobErr String) × FsState :=
  match FileSystemStore.fullPath key with
  | .error e => (some e, s)
  | .ok p =>
    match fsGet s.files p with
    | none => (none, s)
    | some _ => (none, ⟨fsRemove s.files p, s.temps⟩)

/-- `FileSystemStore.Exists`: via `HeadObject`, mapping `ErrBlobNotFound`
to `false`. -/
def FileSystemStore.Exists (s : FsState) (key : String) :
    Except (BlobErr String) Bool :=
  match FileSystemStore.HeadObject s key with
  | .error .blobNotFound => .ok false
  | .error e => .error e
  | .ok _ => .ok true

/-- `FileSystemStore.Copy`: explicit empty checks, `fullPath` on both keys,
`os.Open` of the source (not-found check), create destination directories
and stream the bytes into the destination file. -/
def FileSystemStore.Copy (s : FsState) (sourceKey destKey : String) :
    Option (BlobErr String) × FsState :=
  if sourceKey = "" || destKey = "" then (some .invalidBlobKey, s)
  else
    match FileSystemStore.fullPath sourceKey with
    | .error e => (some e, s)
    | .ok sp =>
      match FileSystemStore.fullPath destKey with
      | .error e => (some e, s)
      | .ok dp =>
        match fsGet s.files sp with
        | none => (some .blobNotFound, s)
        | some d => (none, ⟨fsSet s.files dp d, s.temps⟩)

/-- The cancellation oracle for a Go `context.Context` observed at discrete
check points: `some n` means `ctx.Err()` starts returning non-nil at the
`n`-th check (0-based) and stays non-nil afterwards; `none` means the
context is never cancelled.  `ctxDec` advances past one check. -/
def ctxDec : Option Nat → Option Nat
  | none => none
  | some 0 => some 0
  | some (n + 1) => some n

def ctxNow : Option Nat → Bool
  | some 0 => true
  | _ => false

/-- The per-key loop of `FileSystemStore.DeleteMultiple`: check `ctx.Err()`
(on cancellation, append the *entire* original key slice to the accumulated
failures and return the context's error), else `Delete` the key, recording
it as failed when the error is neither nil nor `ErrBlobNotFound`.  After the
loop: one aggregate `ErrBlobDeleteFailed` iff any key failed. -/
def FileSystemStore.deleteLoop (allKeys : List String) :
    Option Nat → FsState → List String → List String →
    (List String × Option (BlobErr String)) × FsState
  | _, s, failed, [] =>
    if failed = [] then (([], none), s)
    else ((failed, some (.deleteFailed none)), s)
  | cf, s, failed, key :: rest =>
    if ctxNow cf then ((failed ++ allKeys, some .ctxCanceled), s)
    else
      match FileSystemStore.Delete s key with
      | (some e, s1) =>
        if e = .blobNotFound then
          FileSystemStore.deleteLoop allKeys (ctxDec cf) s1 failed rest
        else
          FileSystemStore.deleteLoop allKeys (ctxDec cf) s1 (failed ++ [key]) rest
      | (none, s1) =>
        FileSystemStore.deleteLoop allKeys (ctxDec cf) s1 failed rest

/-- `FileSystemStore.DeleteMultiple`. -/
def FileSystemStore.DeleteMultiple (s : FsState) (cancelFrom : Option Nat)
    (keys : List String) : (List String × Option (BlobErr String)) × FsState :=
  if keys = [] then (([], none), s)
  else FileSystemStore.deleteLoop keys cancelFrom s [] keys

/-- The keys of `keys` whose `Delete` fails for a reason other than
`ErrBlobNotFound`, threading the store state — the failure set
`DeleteMultiple` accumulates when it is not cancelled. -/
def fsFailures (s : FsState) : List String → List String
  | [] => []
  | key :: rest =>
    match FileSystemStore.Delete s key with
    | (some e, s1) =>
      if e = .blobNotFound then fsFailures s1 rest
      else key :: fsFailures s1 rest
    | (none, s1) => fsFailures s1 rest

/-- The effective `maxKeys` of a `List` call: default 1000 when the given
value is not positive. -/
def effMaxKeys (mk : Int) : Int :=
  if mk ≤ 0 then 1000 else mk

/-- The per-file body of `FileSystemStore.List`'s walk: keep a regular
file when its root-relative slash key passes the prefix filter and the
exclusive `startAfter` filter (`key <= startAfter` is skipped), building
its `ObjectInfo` (again with a zero-value ETag). -/
def listFilterEntry (pfx startAfter : String) (kv : String × List Nat) :
    Option ObjectInfo :=
  if pfx ≠ "" && !goHasPre kv.1 pfx then none
  else if startAfter ≠ "" && decide (goStrLe kv.1 startAfter) then none
  else some ⟨kv.1, Int.ofNat kv.2.length, detectContentType kv.1, ""⟩

/-- The collect stage of the walk: all matching files, in walk order. -/
def listFilter (pfx startAfter : String) (files : List (String × List Nat)) :
    List ObjectInfo :=
  files.filterMap (listFilterEntry pfx startAfter)

/-- `sort.Slice(objects, ...Key < ...Key)` as the ascending-key order used
by `List`. -/
def objLe (a b : ObjectInfo) : Prop :=
  goStrLe a.key b.key

instance : DecidableRel objLe := by
  unfold objLe; infer_instance

instance : IsTotal ObjectInfo objLe :=
  ⟨fun a b => le_total a.key.data b.key.data⟩

instance : IsTrans ObjectInfo objLe :=
  ⟨fun _ _ _ h1 h2 => le_trans h1 h2⟩

/-- Both backends finish a `List` the same way: `NextMarker` is set to the
key of the last object of the returned page whenever the page is non-empty
(`if len(objects) > 0`), regardless of `IsTruncated`. -/
def withLastMarker (objects : List ObjectInfo) (isTruncated : Bool) : ListOutput :=
  ⟨objects, isTruncated,
    match objects.getLast? with
    | some o => o.key
    | none => ""⟩

/-- `FileSystemStore.List`: walk every file under the root (the walk visits
the state's entries in their list order; `cancelAt` cuts the walk short at
that many visited files, and the resulting `context.Canceled` error from
`WalkDir` is deliberately swallowed by the source), filter, sort the whole
filtered set ascending by key, then truncate to `maxKeys`, setting
`IsTruncated` and `NextMarker` (last returned key, only when the page is
non-empty). -/
def FileSystemStore.List (files : List (String × List Nat))
    (cancelAt : Option Nat) (input : ListInput) : ListOutput :=
  let m := effMaxKeys input.maxKeys
  let walked := match cancelAt with
    | none => files
    | some k => files.take k
  let objects := List.insertionSort objLe (listFilter input.pfx input.startAfter walked)
  let isTruncated := decide ((objects.length : Int) > m)
  let page := if isTruncated then objects.take m.toNat else objects
  withLastMarker page isTruncated

/-! ## Networked backend (`S3Store`, second half of `internal/blob/blob.go`)

Each operation takes the outcome of its single AWS SDK call as an oracle
argument and returns, alongside the Go result, whether the network was
reached, so that "validation happens before any I/O" is expressible. -/

/-- The error shapes an AWS SDK call can produce: a `smithy.APIError` with
its code, the typed `types.NotFound` / `types.NoSuchKey` errors, and any
other transport/service failure. -/
inductive S3ApiErr where
  | api (code : String)
  | typedNotFound
  | typedNoSuchKey
  | transport (msg : String)
deriving DecidableEq, Repr

/-- `S3Store.isNotFoundError`: `errors.As` to `smithy.APIError` with code
`"NotFound"`, `"NoSuchKey"` or `"404"`, or to the typed `NotFound` /
`NoSuchKey` errors. -/
def S3Store.isNotFoundError : S3ApiErr → Bool
  | .api code => code = "NotFound" || code = "NoSuchKey" || code = "404"
  | .typedNotFound => true
  | .typedNoSuchKey => true
  | .transport _ => false

/-- What `manager.Uploader.Upload` returns on success. -/
structure S3UploadResult where
  location : String
  versionID : Option String
  etag : String
deriving DecidableEq, Repr

/-- `S3Store.Upload`: empty-key check, nil-body check, content-type default,
then hand off to the upload manager; any manager error is wrapped as
`ErrBlobUploadFailed` with the cause retained. -/
def S3Store.Upload (net : Except S3ApiErr S3UploadResult) (input : UploadInput) :
    Except (BlobErr S3ApiErr) UploadOutput × Bool :=
  if input.key = "" then (.error .invalidBlobKey, false)
  else
    match input.body with
    | none => (.error .invalidInput, false)
    | some _ =>
      match net with
      | .error e => (.error (.uploadFailed e), true)
      | .ok r => (.ok ⟨r.location, r.versionID.getD (""), r.etag⟩, true)

/-- `S3Store.Download`: empty-key check, then the download manager; a
not-found-shaped error maps to `ErrBlobNotFound`, anything else to
`ErrBlobDownloadFailed` with the cause retained.  The `Int` is the byte
count the manager reports. -/
def S3Store.Download (net : Except S3ApiErr Int) (key : String) :
    Except (BlobErr S3ApiErr) Int × Bool :=
  if key = "" then (.error .invalidBlobKey, false)
  else
    match net with
    | .error e =>
      if S3Store.isNotFoundError e then (.error .blobNotFound, true)
      else (.error (.downloadFailed e), true)
    | .ok n => (.ok n, true)

/-- `S3Store.GetObject`: same boundary classification as `Download`; the
model returns the bytes of the response body. -/
def S3Store.GetObject (net : Except S3ApiErr (List Nat)) (key : String) :
    Except (BlobErr S3ApiErr) (List Nat) × Bool :=
  if key = "" then (.error .invalidBlobKey, false)
  else
    match net with
    | .error e =>
      if S3Store.isNotFoundError e then (.error .blobNotFound, true)
      else (.error (.downloadFailed e), true)
    | .ok d => (.ok d, true)

/-- What `s3.Client.HeadObject` returns on success (optional fields stay
optional: their absence is not a failure). -/
structure S3HeadResult where
  contentLength : Option Int
  contentType : Option String
  etag : Option String
deriving DecidableEq, Repr

/-- `S3Store.HeadObject`: empty-key check, single network call, not-found
classification; other errors get the anonymous
`"failed to get object info"` wrap. -/
def S3Store.HeadObject (net : Except S3ApiErr S3HeadResult) (key : String) :
    Except (BlobErr S3ApiErr) ObjectInfo × Bool :=
  if key = "" then (.error .invalidBlobKey, false)
  else
    match net with
    | .error e =>
      if S3Store.isNotFoundError e then (.error .blobNotFound, true)
      else (.error (.otherFailure ("failed to get object info") e), true)
    | .ok r =>
      (.ok ⟨key, r.contentLength.getD 0, r.contentType.getD (""), r.etag.getD ("")⟩, true)

/-- `S3Store.Delete`: empty-key check, one `DeleteObject` call; *any* error
(including a hypothetical not-found shape) becomes `ErrBlobDeleteFailed`;
success is success whether or not the object existed. -/
def S3Store.Delete (net : Except S3ApiErr Unit) (key : String) :
    Option (BlobErr S3ApiErr) × Bool :=
  if key = "" then (some .invalidBlobKey, false)
  else
    match net with
    | .error e => (some (.deleteFailed (some (e))), true)
    | .ok _ => (none, true)

/-- One `DeleteObjects` batch call: the oracle either fails the whole
request or returns the per-object failures (`result.Errors`) of that
batch. -/
def batchFailures (net : List String → Except S3ApiErr (List String))
    (batch : List String) : List String :=
  match net batch with
  | .error _ => batch
  | .ok errs => errs

/-- The batching loop of `S3Store.DeleteMultiple`
(`for i := 0; i < len(keys); i += 1000`): take 1000 keys, issue one batch
call, on request failure count the whole batch as failed, otherwise collect
the per-object failures, and continue with the rest.  Structural recursion
on a fuel bounded by the number of keys. -/
def S3Store.deleteBatchesFuel (net : List String → Except S3ApiErr (List String)) :
    Nat → List String → List String
  | _, [] => []
  | 0, _ :: _ => []
  | fuel + 1, keys =>
    batchFailures net (keys.take 1000) ++
      S3Store.deleteBatchesFuel net fuel (keys.drop 1000)

def S3Store.deleteBatches (net : List String → Except S3ApiErr (List String))
    (keys : List String) : List String :=
  S3Store.deleteBatchesFuel net keys.length keys

/-- `S3Store.DeleteMultiple`: empty input short-circuits; otherwise run the
batches and pair the concatenated failed keys with one aggregate
`ErrBlobDeleteFailed` iff any key failed. -/
def S3Store.DeleteMultiple (net : List String → Except S3ApiErr (List String))
    (keys : List String) : (List String × Option (BlobErr S3ApiErr)) × Bool :=
  if keys = [] then (([], none), false)
  else
    let failed := S3Store.deleteBatches net keys
    (if failed = [] then ([], none) else (failed, some (.deleteFailed none)), true)

/-- One `ListObjectsV2` response page. -/
structure S3Object where
  key : String
  size : Int
  etag : String
deriving DecidableEq, Repr

structure S3ListResponse where
  contents : List S3Object
  isTruncated : Bool
deriving DecidableEq, Repr

/-- The success path of `S3Store.List`: map the single response page to
`ObjectInfo`s (content type is not part of a list entry — zero value), pass
the server's `IsTruncated` through, and set `NextMarker` to the key of the
*last returned object* whenever the page is non-empty. -/
def S3Store.listOk (resp : S3ListResponse) : ListOutput :=
  withLastMarker (resp.contents.map fun o => ObjectInfo.mk o.key o.size ("") o.etag)
    resp.isTruncated

/-- `S3Store.List`: compute the effective `maxKeys` for the request, issue
one paginated request, wrap request errors anonymously. -/
def S3Store.List (net : Except S3ApiErr S3ListResponse) (_input : ListInput) :
    Except (BlobErr S3ApiErr) ListOutput :=
  match net with
  | .error e => .error (.otherFailure ("failed to list objects") e)
  | .ok resp => .ok (S3Store.listOk resp)

/-- `S3Store.Copy`: empty checks on both keys, one server-side `CopyObject`
call, not-found classification, anonymous wrap otherwise. -/
def S3Store.Copy (net : Except S3ApiErr Unit) (sourceKey destKey : String) :
    Option (BlobErr S3ApiErr) × Bool :=
  if sourceKey = "" || destKey = "" then (some .invalidBlobKey, false)
  else
    match net with
    | .error e =>
      if S3Store.isNotFoundError e then (some .blobNotFound, true)
      else (some (.otherFailure ("failed to copy object") e), true)
    | .ok _ => (none, true)

/-! ## Derived predicates used by the claim statements -/

/-- A key the sanitizer accepts: non-empty, and its cleaned form neither
starts with `".."` nor is absolute. -/
def validKey (key : String) : Prop :=
  key ≠ "" ∧ goHasPre (goClean key) ("..") = false ∧ goIsAbs (goClean key) = false

instance (key : String) : Decidable (validKey key) := by
  unfold validKey; infer_instance

/-- A key the sanitizer rejects. -/
def invalidKeyCond (key : String) : Prop :=
  key = "" ∨ goHasPre (goClean key) ("..") = true ∨ goIsAbs (goClean key) = true

instance (key : String) : Decidable (invalidKeyCond key) := by
  unfold invalidKeyCond; infer_instance

/-- Strict ascending-key order, used to compare sorted pages with distinct
keys. -/
def objLt (a b : ObjectInfo) : Prop :=
  a.key.data < b.key.data

instance : DecidableRel objLt := by
  unfold objLt; infer_instance

instance : IsAntisymm ObjectInfo objLt :=
  ⟨fun _ _ h1 h2 => absurd h2 (lt_asymm h1)⟩

/-- The 1000-key batches `S3Store.DeleteMultiple` cuts its input into
(specification mirror of the loop's slicing, independent of the network). -/
def chunks1000Fuel : Nat → List String → List (List String)
  | _, [] => []
  | 0, _ :: _ => []
  | fuel + 1, keys => keys.take 1000 :: chunks1000Fuel fuel (keys.drop 1000)

def chunks1000 (keys : List String) : List (List String) :=
  chunks1000Fuel keys.length keys

/-! ## Basic lemmas about the sanitizer and the state maps -/

theorem strData_inj {a b : String} (h : a.data = b.data) : a = b := by
  cases a; cases b; exact congrArg String.mk h

theorem fullPath_ok {key : String} (h : validKey key) :
    FileSystemStore.fullPath key = .ok (goClean key) := by
  obtain ⟨h1, h2, h3⟩ := h
  simp [FileSystemStore.fullPath, h1, h2, h3]

theorem fullPath_err {key : String} (h : invalidKeyCond key) :
    FileSystemStore.fullPath key = .error .invalidBlobKey := by
  by_cases h1 : key = ""
  · simp [FileSystemStore.fullPath, h1]
  · rcases h with h | h | h
    · exact absurd h h1
    · simp [FileSystemStore.fullPath, h1, h]
    · simp [FileSystemStore.fullPath, h1, h]

theorem fullPath_cases (key : String) :
    FileSystemStore.fullPath key = .ok (goClean key) ∨
      FileSystemStore.fullPath key = .error .invalidBlobKey := by
  unfold FileSystemStore.fullPath
  by_cases h1 : key = ""
  · simp [h1]
  · simp only [h1, if_false]
    split
    · right; rfl
    · left; rfl

theorem fsGet_fsSet_self (l : List (String × List Nat)) (k : String) (v : List Nat) :
    fsGet (fsSet l k v) k = some v := by
  induction l with
  | nil => simp [fsSet, fsGet]
  | cons kv rest ih =>
    by_cases h : kv.1 = k
    · simp [fsSet, fsGet, h]
    · simp [fsSet, fsGet, h, ih]

/-- With valid key, `Upload` without fault is one atomic replacement of the
final path's content, returning the MD5 hex ETag. -/
theorem upload_ok_eq (s : FsState) (key tmp ct : String) (body : List Nat)
    (md : List (String × String)) (hv : validKey key) :
    FileSystemStore.Upload s ⟨key, some body, ct, md⟩ false tmp .noFault =
      (.ok ⟨goClean key, "", md5hex body⟩,
       ⟨fsSet s.files (goClean key) body, fsRemove (fsSet s.temps tmp body) tmp⟩) := by
  have hfp := fullPath_ok hv
  obtain ⟨h1, _, _⟩ := hv
  simp [FileSystemStore.Upload, h1, hfp]

/-- `Delete` on a valid key always reports success on the local backend
(`os.Remove` of a missing file is success by fiat). -/
theorem delete_fst_none_of_valid (s : FsState) {key : String} (hv : validKey key) :
    (FileSystemStore.Delete s key).1 = none := by
  have hfp := fullPath_ok hv
  cases hget : fsGet s.files (goClean key) <;>
    simp [FileSystemStore.Delete, hfp, hget]

/-! ## C1 — key validation -/

/-- C1 (amended): on the local backend, every operation taking a single key
(Upload, Download, GetObject, HeadObject, Delete, Copy in either position)
rejects a key that is empty, absolute, or escapes the root after
normalization with `InvalidKey`, before any I/O and without changing the
store; the networked backend rejects only *empty* keys with `InvalidKey`
before I/O, while every non-empty key — including traversal keys — reaches
the network, so the two backends' rejection semantics are not identical. -/
theorem c1_key_validation_per_backend
    (s : FsState) (key other tmp ct : String) (b b2 sink : List Nat)
    (md md2 : List (String × String)) (fault : UploadFault) (k2 ct2 : String)
    (netU : Except S3ApiErr S3UploadResult) (netD : Except S3ApiErr Int)
    (hk : invalidKeyCond key) (hk2 : k2 ≠ "") :
    FileSystemStore.Upload s ⟨key, some b, ct, md⟩ false tmp fault
        = (.error .invalidBlobKey, s)
    ∧ FileSystemStore.Download s key sink false = .error .invalidBlobKey
    ∧ FileSystemStore.GetObject s key = .error .invalidBlobKey
    ∧ FileSystemStore.HeadObject s key = .error .invalidBlobKey
    ∧ FileSystemStore.Delete s key = (some .invalidBlobKey, s)
    ∧ FileSystemStore.Copy s key other = (some .invalidBlobKey, s)
    ∧ FileSystemStore.Copy s other key = (some .invalidBlobKey, s)
    ∧ S3Store.Upload netU ⟨"", some b2, ct2, md2⟩ = (.error .invalidBlobKey, false)
    ∧ S3Store.Download netD ("") = (.error .invalidBlobKey, false)
    ∧ (S3Store.Upload netU ⟨k2, some b2, ct2, md2⟩).2 = true
    ∧ (S3Store.Download netD k2).2 = true := by
  have hfp := fullPath_err hk
  refine ⟨?_, ?_, ?_, ?_, ?_, ?_, ?_, ?_, ?_, ?_, ?_⟩
  · by_cases h1 : key = ""
    · simp [FileSystemStore.Upload, h1]
    · simp [FileSystemStore.Upload, h1, hfp]
  · simp [FileSystemStore.Download, hfp]
  · simp [FileSystemStore.GetObject, hfp]
  · simp [FileSystemStore.HeadObject, hfp]
  · simp [FileSystemStore.Delete, hfp]
  · by_cases h1 : key = ""
    · simp [FileSystemStore.Copy, h1]
    · by_cases h2 : other = ""
      · simp [FileSystemStore.Copy, h1, h2]
      · simp [FileSystemStore.Copy, h1, h2, hfp]
  · by_cases h2 : other = ""
    · simp [FileSystemStore.Copy, h2]
    · by_cases h1 : key = ""
      · simp [FileSystemStore.Copy, h1, h2]
      · rcases fullPath_cases other with ho | ho
        · simp [FileSystemStore.Copy, h1, h2, ho, hfp]
        · simp [FileSystemStore.Copy, h1, h2, ho]
  · simp [S3Store.Upload]
  · simp [S3Store.Download]
  · cases netU <;> simp [S3Store.Upload, hk2]
  · cases netD with
    | error e =>
      by_cases hnf : S3Store.isNotFoundError e
      · simp [S3Store.Download, hk2, hnf]
      · simp [S3Store.Download, hk2, hnf]
    | ok n => simp [S3Store.Download, hk2]

/-- C1 counterexample: the claim promises the traversal key `"../secret"`
is rejected with `InvalidKey` before any I/O on *both* backends; on the
networked backend the upload instead reaches the network and succeeds. -/
theorem c1_s3_traversal_key_not_rejected :
    (S3Store.Upload (.ok ⟨"L", none, "E"⟩) ⟨"../secret", some [1], "", []⟩).2 = true
    ∧ (S3Store.Upload (.ok ⟨"L", none, "E"⟩) ⟨"../secret", some [1], "", []⟩).1 =
        .ok ⟨"L", "", "E"⟩
    ∧ (S3Store.Upload (.ok ⟨"L", none, "E"⟩) ⟨"../secret", some [1], "", []⟩).1 ≠
        .error .invalidBlobKey := by
  refine ⟨rfl, rfl, fun h => ?_⟩
  exact Except.noConfusion h

/-- Closed instance of `c1_key_validation_per_backend`. -/
theorem c1_key_validation_witness :
    invalidKeyCond ("../secret") ∧ ("k" : String) ≠ "" ∧
    (FileSystemStore.Upload ⟨[], []⟩ ⟨"../secret", some [1], "", []⟩ false ("t") .noFault
        = (.error .invalidBlobKey, ⟨[], []⟩)
    ∧ FileSystemStore.Download ⟨[], []⟩ ("../secret") [] false = .error .invalidBlobKey
    ∧ FileSystemStore.GetObject ⟨[], []⟩ ("../secret") = .error .invalidBlobKey
    ∧ FileSystemStore.HeadObject ⟨[], []⟩ ("../secret") = .error .invalidBlobKey
    ∧ FileSystemStore.Delete ⟨[], []⟩ ("../secret") = (some .invalidBlobKey, ⟨[], []⟩)
    ∧ FileSystemStore.Copy ⟨[], []⟩ ("../secret") ("o") = (some .invalidBlobKey, ⟨[], []⟩)
    ∧ FileSystemStore.Copy ⟨[], []⟩ ("o") ("../secret") = (some .invalidBlobKey, ⟨[], []⟩)
    ∧ S3Store.Upload (.ok ⟨"L", none, "E"⟩) ⟨"", some [2], "", []⟩
        = (.error .invalidBlobKey, false)
    ∧ S3Store.Download (.ok 3) ("") = (.error .invalidBlobKey, false)
    ∧ (S3Store.Upload (.ok ⟨"L", none, "E"⟩) ⟨"k", some [2], "", []⟩).2 = true
    ∧ (S3Store.Download (.ok 3) ("k")).2 = true) :=
  ⟨by decide, by decide,
    c1_key_validation_per_backend ⟨[], []⟩ ("../secret") ("o") ("t") ("") [1] [2] []
      [] [] .noFault ("k") ("") (.ok ⟨"L", none, "E"⟩) (.ok 3) (by decide) (by decide)⟩

/-! ## C2 — round-trip fidelity on the local backend -/

/-- C2: for every sanitizer-accepted key and finite payload, `Upload`
stores exactly the payload bytes under the key's path (no header or
envelope), and a following `Download` writes them into the caller's sink at
offset 0 returning their length, while `GetObject` returns them verbatim. -/
theorem c2_round_trip (s : FsState) (key tmp : String) (body sink : List Nat)
    (hv : validKey key) :
    (∃ out, (FileSystemStore.Upload s ⟨key, some body, "", []⟩ false tmp .noFault).1 = .ok out
        ∧ out.etag = md5hex body)
    ∧ fsGet (FileSystemStore.Upload s ⟨key, some body, "", []⟩ false tmp .noFault).2.files
        (goClean key) = some body
    ∧ FileSystemStore.Download
        (FileSystemStore.Upload s ⟨key, some body, "", []⟩ false tmp .noFault).2 key sink false
        = .ok (Int.ofNat body.length, body ++ sink.drop body.length)
    ∧ FileSystemStore.GetObject
        (FileSystemStore.Upload s ⟨key, some body, "", []⟩ false tmp .noFault).2 key
        = .ok body := by
  have hfp := fullPath_ok hv
  rw [upload_ok_eq s key tmp ("") body [] hv]
  refine ⟨⟨_, rfl, rfl⟩, fsGet_fsSet_self _ _ _, ?_, ?_⟩
  · simp [FileSystemStore.Download, hfp, fsGet_fsSet_self, writeAt]
  · simp [FileSystemStore.GetObject, hfp, fsGet_fsSet_self]

/-- Closed instance of `c2_round_trip` ("hello" under key `f.txt`, with a
pre-existing unrelated object and a longer pre-filled sink). -/
theorem c2_round_trip_witness :
    validKey ("f.txt") ∧
    ((∃ out, (FileSystemStore.Upload ⟨[("x", [9])], []⟩
          ⟨"f.txt", some [104, 101, 108, 108, 111], "", []⟩ false ("t") .noFault).1 = .ok out
        ∧ out.etag = md5hex [104, 101, 108, 108, 111])
    ∧ fsGet (FileSystemStore.Upload ⟨[("x", [9])], []⟩
          ⟨"f.txt", some [104, 101, 108, 108, 111], "", []⟩ false ("t") .noFault).2.files
        (goClean ("f.txt")) = some [104, 101, 108, 108, 111]
    ∧ FileSystemStore.Download (FileSystemStore.Upload ⟨[("x", [9])], []⟩
          ⟨"f.txt", some [104, 101, 108, 108, 111], "", []⟩ false ("t") .noFault).2
        ("f.txt") [1, 2, 3, 4, 5, 6, 7] false
        = .ok (Int.ofNat (List.length [104, 101, 108, 108, 111]),
            [104, 101, 108, 108, 111] ++
              List.drop (List.length [104, 101, 108, 108, 111]) [1, 2, 3, 4, 5, 6, 7])
    ∧ FileSystemStore.GetObject (FileSystemStore.Upload ⟨[("x", [9])], []⟩
          ⟨"f.txt", some [104, 101, 108, 108, 111], "", []⟩ false ("t") .noFault).2 ("f.txt")
        = .ok [104, 101, 108, 108, 111]) :=
  ⟨by decide, c2_round_trip ⟨[("x", [9])], []⟩ ("f.txt") ("t")
    [104, 101, 108, 108, 111] [1, 2, 3, 4, 5, 6, 7] (by decide)⟩

/-! ## C4 — HeadObject after Upload on the local backend -/

/-- C4 (amended): after uploading a payload under a valid key on the local
backend, `HeadObject` returns `Size` equal to the payload length and the
extension-derived content type, but its `ETag` is the *empty string* (the
struct literal never sets it); the deterministic MD5 content hash is
returned only by `Upload`'s own output. -/
theorem c4_head_after_upload (s : FsState) (key tmp : String) (body : List Nat)
    (hv : validKey key) :
    (∃ out, (FileSystemStore.Upload s ⟨key, some body, "", []⟩ false tmp .noFault).1 = .ok out
        ∧ out.etag = md5hex body)
    ∧ FileSystemStore.HeadObject
        (FileSystemStore.Upload s ⟨key, some body, "", []⟩ false tmp .noFault).2 key
        = .ok ⟨key, Int.ofNat body.length, detectContentType key, ""⟩ := by
  rw [upload_ok_eq s key tmp ("") body [] hv]
  refine ⟨⟨_, rfl, rfl⟩, ?_⟩
  simp [FileSystemStore.HeadObject, fullPath_ok hv, fsGet_fsSet_self]

/-- C4 counterexample: uploading the 5-byte content "hello" as
`hello.txt`, `HeadObject` does report `Size == 5` but its ETag is `""`,
not the MD5 hash `5d41402abc4b2a76b9719d911017c592` that `Upload`
computed over the stored bytes — the claimed equality fails. -/
theorem c4_head_etag_empty :
    (FileSystemStore.Upload ⟨[], []⟩ ⟨"hello.txt", some [104, 101, 108, 108, 111], "", []⟩
        false (".tmp-0") .noFault).1
      = .ok ⟨"hello.txt", "", "5d41402abc4b2a76b9719d911017c592"⟩
    ∧ FileSystemStore.HeadObject
        (FileSystemStore.Upload ⟨[], []⟩
          ⟨"hello.txt", some [104, 101, 108, 108, 111], "", []⟩ false (".tmp-0") .noFault).2
        ("hello.txt")
      = .ok ⟨"hello.txt", 5, "text/plain", ""⟩
    ∧ ("" : String) ≠ "5d41402abc4b2a76b9719d911017c592" :=
  ⟨rfl, rfl, by decide⟩

/-- Closed instance of `c4_head_after_upload`. -/
theorem c4_head_after_upload_witness :
    validKey ("hello.txt") ∧
    ((∃ out, (FileSystemStore.Upload ⟨[], []⟩
          ⟨"hello.txt", some [104, 101, 108, 108, 111], "", []⟩ false ("t") .noFault).1 = .ok out
        ∧ out.etag = md5hex [104, 101, 108, 108, 111])
    ∧ FileSystemStore.HeadObject
        (FileSystemStore.Upload ⟨[], []⟩
          ⟨"hello.txt", some [104, 101, 108, 108, 111], "", []⟩ false ("t") .noFault).2
        ("hello.txt")
        = .ok ⟨"hello.txt", Int.ofNat (List.length [104, 101, 108, 108, 111]),
            detectContentType ("hello.txt"), ""⟩) :=
  ⟨by decide, c4_head_after_upload ⟨[], []⟩ ("hello.txt") ("t")
    [104, 101, 108, 108, 111] (by decide)⟩

/-! ## C6 — idempotent Delete -/

/-- C6: `Delete` on any sanitizer-accepted key reports success on the local
backend whether or not the object exists — in particular deleting twice in
a row succeeds both times, and deleting an absent object returns success
and leaves the store unchanged; on the networked backend a completed
`DeleteObject` call (which S3 answers successfully for absent keys too)
always maps to success, so repeated deletes both succeed. -/
theorem c6_delete_idempotent (s : FsState) (key k2 : String)
    (hv : validKey key) (hk2 : k2 ≠ "") :
    (FileSystemStore.Delete s key).1 = none
    ∧ (FileSystemStore.Delete (FileSystemStore.Delete s key).2 key).1 = none
    ∧ (fsGet s.files (goClean key) = none → FileSystemStore.Delete s key = (none, s))
    ∧ S3Store.Delete (.ok ()) k2 = (none, true) := by
  refine ⟨delete_fst_none_of_valid s hv, delete_fst_none_of_valid _ hv, ?_, ?_⟩
  · intro h
    simp [FileSystemStore.Delete, fullPath_ok hv, h]
  · simp [S3Store.Delete, hk2]

/-- Closed instance of `c6_delete_idempotent` (absent key `nope`). -/
theorem c6_delete_idempotent_witness :
    validKey ("nope") ∧ ("k" : String) ≠ "" ∧
    ((FileSystemStore.Delete ⟨[("a", [1])], []⟩ ("nope")).1 = none
    ∧ (FileSystemStore.Delete (FileSystemStore.Delete ⟨[("a", [1])], []⟩ ("nope")).2 ("nope")).1
        = none
    ∧ (fsGet (FsState.files ⟨[("a", [1])], []⟩) (goClean ("nope")) = none →
        FileSystemStore.Delete ⟨[("a", [1])], []⟩ ("nope") = (none, ⟨[("a", [1])], []⟩))
    ∧ S3Store.Delete (.ok ()) ("k") = (none, true)) :=
  ⟨by decide, by decide,
    c6_delete_idempotent ⟨[("a", [1])], []⟩ ("nope") ("k") (by decide) (by decide)⟩

/-! ## C7 — failure atomicity of local Upload -/

/-- C7: if any of the temp-file creation, stream copy, close, or rename
steps of a local `Upload` fails, the operation returns `UploadFailed`,
leaves no temporary file behind, and leaves every stored object — in
particular the content under the final key — exactly as it was, so a
reader sees either the complete prior content or (on success) the complete
new content, never a partial write. -/
theorem c7_upload_failure_atomicity (s : FsState) (key tmp : String) (body : List Nat)
    (fault : UploadFault) (hv : validKey key) (ht : s.temps = [])
    (hf : fault ≠ .noFault) :
    (∃ cause, (FileSystemStore.Upload s ⟨key, some body, "", []⟩ false tmp fault).1
        = .error (.uploadFailed cause))
    ∧ (FileSystemStore.Upload s ⟨key, some body, "", []⟩ false tmp fault).2.files = s.files
    ∧ (∀ k, fsGet (FileSystemStore.Upload s ⟨key, some body, "", []⟩ false tmp fault).2.files k
        = fsGet s.files k)
    ∧ (FileSystemStore.Upload s ⟨key, some body, "", []⟩ false tmp fault).2.temps = [] := by
  have hfp := fullPath_ok hv
  obtain ⟨h1, -, -⟩ := hv
  cases fault with
  | noFault => exact absurd rfl hf
  | tempCreate =>
    refine ⟨⟨("create temp file"), ?_⟩, ?_, fun k => ?_, ?_⟩ <;>
      simp [FileSystemStore.Upload, h1, hfp, ht, fsSet, fsRemove]
  | copyAt n =>
    refine ⟨⟨("write file"), ?_⟩, ?_, fun k => ?_, ?_⟩ <;>
      simp [FileSystemStore.Upload, h1, hfp, ht, fsSet, fsRemove]
  | closeTmp =>
    refine ⟨⟨("close temp file"), ?_⟩, ?_, fun k => ?_, ?_⟩ <;>
      simp [FileSystemStore.Upload, h1, hfp, ht, fsSet, fsRemove]
  | renameFinal =>
    refine ⟨⟨("rename temp file"), ?_⟩, ?_, fun k => ?_, ?_⟩ <;>
      simp [FileSystemStore.Upload, h1, hfp, ht, fsSet, fsRemove]

/-- Closed instance of `c7_upload_failure_atomicity`: a failing rename over
a key that already holds content leaves the old content intact and no temp
file. -/
theorem c7_upload_failure_atomicity_witness :
    validKey ("f.txt") ∧ FsState.temps ⟨[("f.txt", [1, 2])], []⟩ = [] ∧
      UploadFault.renameFinal ≠ UploadFault.noFault ∧
    ((∃ cause, (FileSystemStore.Upload ⟨[("f.txt", [1, 2])], []⟩
          ⟨"f.txt", some [9, 9, 9], "", []⟩ false ("t") .renameFinal).1
        = .error (.uploadFailed cause))
    ∧ (FileSystemStore.Upload ⟨[("f.txt", [1, 2])], []⟩
          ⟨"f.txt", some [9, 9, 9], "", []⟩ false ("t") .renameFinal).2.files
        = FsState.files ⟨[("f.txt", [1, 2])], []⟩
    ∧ (∀ k, fsGet (FileSystemStore.Upload ⟨[("f.txt", [1, 2])], []⟩
          ⟨"f.txt", some [9, 9, 9], "", []⟩ false ("t") .renameFinal).2.files k
        = fsGet (FsState.files ⟨[("f.txt", [1, 2])], []⟩) k)
    ∧ (FileSystemStore.Upload ⟨[("f.txt", [1, 2])], []⟩
          ⟨"f.txt", some [9, 9, 9], "", []⟩ false ("t") .renameFinal).2.temps = []) :=
  ⟨by decide, rfl, by decide,
    c7_upload_failure_atomicity ⟨[("f.txt", [1, 2])], []⟩ ("f.txt") ("t") [9, 9, 9]
      .renameFinal (by decide) rfl (by decide)⟩

/-! ## Loop characterizations for `DeleteMultiple` -/

/-- Without cancellation, the local delete loop returns exactly the
accumulated failures plus the failures of the remaining keys, with one
aggregate `DeleteFailed` iff that set is non-empty. -/
theorem deleteLoop_none_fst (allKeys : List String) (rem : List String) :
    ∀ (s : FsState) (failed : List String),
      (FileSystemStore.deleteLoop allKeys none s failed rem).1 =
        (if failed ++ fsFailures s rem = [] then ([], none)
         else (failed ++ fsFailures s rem, some (.deleteFailed none))) := by
  induction rem with
  | nil =>
    intro s failed
    by_cases hf : failed = [] <;> simp [FileSystemStore.deleteLoop, fsFailures, hf]
  | cons key rest ih =>
    intro s failed
    rcases hdel : FileSystemStore.Delete s key with ⟨res, s1⟩
    cases res with
    | none =>
      have hstep : FileSystemStore.deleteLoop allKeys none s failed (key :: rest)
          = FileSystemStore.deleteLoop allKeys none s1 failed rest := by
        simp [FileSystemStore.deleteLoop, ctxNow, ctxDec, hdel]
      rw [hstep, ih s1 failed]
      simp [fsFailures, hdel]
    | some e =>
      by_cases he : e = .blobNotFound
      · have hstep : FileSystemStore.deleteLoop allKeys none s failed (key :: rest)
            = FileSystemStore.deleteLoop allKeys none s1 failed rest := by
          simp [FileSystemStore.deleteLoop, ctxNow, ctxDec, hdel, he]
        rw [hstep, ih s1 failed]
        simp [fsFailures, hdel, he]
      · have hstep : FileSystemStore.deleteLoop allKeys none s failed (key :: rest)
            = FileSystemStore.deleteLoop allKeys none s1 (failed ++ [key]) rest := by
          simp [FileSystemStore.deleteLoop, ctxNow, ctxDec, hdel, he]
        rw [hstep, ih s1 (failed ++ [key])]
        simp [fsFailures, hdel, he]

theorem deleteMultiple_none_fst (s : FsState) (keys : List String) :
    (FileSystemStore.DeleteMultiple s none keys).1 =
      (if fsFailures s keys = [] then ([], none)
       else (fsFailures s keys, some (.deleteFailed none))) := by
  by_cases h : keys = []
  · subst h
    simp [FileSystemStore.DeleteMultiple, fsFailures]
  · have := deleteLoop_none_fst keys keys s []
    simpa [FileSystemStore.DeleteMultiple, h] using this

/-- Valid keys never contribute a failure: their `Delete` reports success
whether or not the object exists. -/
theorem fsFailures_nil_of_valid (keys : List String) :
    ∀ (s : FsState), (∀ k ∈ keys, validKey k) → fsFailures s keys = [] := by
  induction keys with
  | nil => intro s _; rfl
  | cons key rest ih =>
    intro s h
    have hd := delete_fst_none_of_valid s (h key (by simp))
    rcases hdel : FileSystemStore.Delete s key with ⟨res, s1⟩
    rw [hdel] at hd
    simp only at hd
    subst hd
    simp only [fsFailures, hdel]
    exact ih s1 (fun k hk => h k (by simp [hk]))

/-- The S3 batching loop equals batch-wise failure collection over the
1000-key chunks. -/
theorem deleteBatchesFuel_eq_chunks
    (net : List String → Except S3ApiErr (List String)) :
    ∀ (fuel : Nat) (keys : List String), keys.length ≤ fuel →
      S3Store.deleteBatchesFuel net fuel keys =
        ((chunks1000Fuel fuel keys).map (batchFailures net)).flatten := by
  intro fuel
  induction fuel with
  | zero =>
    intro keys h
    cases keys with
    | nil => rfl
    | cons k rest => simp at h
  | succ n ih =>
    intro keys h
    cases keys with
    | nil => rfl
    | cons k rest =>
      simp only [S3Store.deleteBatchesFuel, chunks1000Fuel, List.map_cons,
        List.flatten_cons]
      rw [ih ((k :: rest).drop 1000)]
      simp only [List.length_drop, List.length_cons] at h ⊢
      omega

theorem chunks1000Fuel_flatten :
    ∀ (fuel : Nat) (keys : List String), keys.length ≤ fuel →
      (chunks1000Fuel fuel keys).flatten = keys := by
  intro fuel
  induction fuel with
  | zero =>
    intro keys h
    cases keys with
    | nil => rfl
    | cons k rest => simp at h
  | succ n ih =>
    intro keys h
    cases keys with
    | nil => rfl
    | cons k rest =>
      simp only [chunks1000Fuel, List.flatten_cons]
      rw [ih ((k :: rest).drop 1000)]
      · exact List.take_append_drop 1000 (k :: rest)
      · simp only [List.length_drop, List.length_cons] at h ⊢
        omega

theorem chunks1000Fuel_mem :
    ∀ (fuel : Nat) (keys : List String) (b : List String),
      b ∈ chunks1000Fuel fuel keys → b.length ≤ 1000 ∧ b ≠ [] := by
  intro fuel
  induction fuel with
  | zero =>
    intro keys b hb
    cases keys <;> simp [chunks1000Fuel] at hb
  | succ n ih =>
    intro keys b hb
    cases keys with
    | nil => simp [chunks1000Fuel] at hb
    | cons k rest =>
      simp only [chunks1000Fuel, List.mem_cons] at hb
      rcases hb with hb | hb
      · subst hb
        refine ⟨List.length_take_le 1000 (k :: rest), by simp⟩
      · exact ih _ _ hb

/-! ## C5 — DeleteMultiple batch semantics -/

/-- C5: on the local backend, a batch of sanitizer-accepted keys mixing
existing and already-missing objects yields an empty failed list and no
error (missing keys are not failures); in general the failed keys are
exactly the non-not-found failures, paired with one aggregate
`DeleteFailed` error iff any occurred; on the networked backend the key
set is cut into sequential batches of at most 1000, a per-object failure
within a batch is collected without aborting the batch, and the failures
of all batches are concatenated, paired with one aggregate error iff
non-empty. -/
theorem c5_delete_multiple_batches
    (s : FsState) (keys okKeys sk : List String)
    (net : List String → Except S3ApiErr (List String))
    (hok : ∀ k ∈ okKeys, validKey k) :
    (FileSystemStore.DeleteMultiple s none okKeys).1 = ([], none)
    ∧ (FileSystemStore.DeleteMultiple s none keys).1 =
        (if fsFailures s keys = [] then ([], none)
         else (fsFailures s keys, some (.deleteFailed none)))
    ∧ S3Store.deleteBatches net sk = ((chunks1000 sk).map (batchFailures net)).flatten
    ∧ (∀ b ∈ chunks1000 sk, b.length ≤ 1000 ∧ b ≠ [])
    ∧ (chunks1000 sk).flatten = sk
    ∧ (S3Store.DeleteMultiple net sk).1 =
        (if S3Store.deleteBatches net sk = [] then ([], none)
         else (S3Store.deleteBatches net sk, some (.deleteFailed none))) := by
  refine ⟨?_, deleteMultiple_none_fst s keys, ?_, ?_, ?_, ?_⟩
  · rw [deleteMultiple_none_fst s okKeys, fsFailures_nil_of_valid okKeys s hok]
    simp
  · exact deleteBatchesFuel_eq_chunks net sk.length sk le_rfl
  · exact fun b hb => chunks1000Fuel_mem sk.length sk b hb
  · exact chunks1000Fuel_flatten sk.length sk le_rfl
  · by_cases h : sk = []
    · subst h
      simp [S3Store.DeleteMultiple, S3Store.deleteBatches, S3Store.deleteBatchesFuel]
    · simp only [S3Store.DeleteMultiple, h, if_neg h]
      split <;> simp_all

/-- Closed instance of `c5_delete_multiple_batches`: `a` exists, `b` is
already missing; the networked oracle fails one key per batch. -/
theorem c5_delete_multiple_batches_witness :
    (∀ k ∈ (["a", "b"] : List String), validKey k) ∧
    ((FileSystemStore.DeleteMultiple ⟨[("a", [1])], []⟩ none ["a", "b"]).1 = ([], none)
    ∧ (FileSystemStore.DeleteMultiple ⟨[("a", [1])], []⟩ none ["../x"]).1 =
        (if fsFailures ⟨[("a", [1])], []⟩ ["../x"] = [] then ([], none)
         else (fsFailures ⟨[("a", [1])], []⟩ ["../x"], some (.deleteFailed none)))
    ∧ S3Store.deleteBatches (fun b => .ok (b.take 1)) ["x", "y"] =
        ((chunks1000 ["x", "y"]).map (batchFailures (fun b => .ok (b.take 1)))).flatten
    ∧ (∀ b ∈ chunks1000 ["x", "y"], b.length ≤ 1000 ∧ b ≠ [])
    ∧ (chunks1000 ["x", "y"]).flatten = ["x", "y"]
    ∧ (S3Store.DeleteMultiple (fun b => .ok (b.take 1)) ["x", "y"]).1 =
        (if S3Store.deleteBatches (fun b => .ok (b.take 1)) ["x", "y"] = [] then ([], none)
         else (S3Store.deleteBatches (fun b => .ok (b.take 1)) ["x", "y"],
           some (.deleteFailed none)))) :=
  ⟨by decide,
    c5_delete_multiple_batches ⟨[("a", [1])], []⟩ ["../x"] ["a", "b"] ["x", "y"]
      (fun b => .ok (b.take 1)) (by decide)⟩

/-! ## C9 — cancellation inside the local DeleteMultiple -/

/-- When the per-iteration `ctx.Err()` check fires before iteration `n`
(with keys still remaining), the accumulated failures get the whole
original key slice appended and the context's error is returned. -/
theorem deleteLoop_cancel_fst (allKeys : List String) (rem : List String) :
    ∀ (n : Nat) (s : FsState) (failed : List String), n < rem.length →
      (FileSystemStore.deleteLoop allKeys (some n) s failed rem).1 =
        (failed ++ fsFailures s (rem.take n) ++ allKeys, some .ctxCanceled) := by
  induction rem with
  | nil => intro n s failed h; simp at h
  | cons key rest ih =>
    intro n s failed h
    cases n with
    | zero =>
      simp [FileSystemStore.deleteLoop, ctxNow, fsFailures]
    | succ m =>
      have hlt : m < rest.length := by
        simp only [List.length_cons] at h
        omega
      rcases hdel : FileSystemStore.Delete s key with ⟨res, s1⟩
      cases res with
      | none =>
        have hstep : FileSystemStore.deleteLoop allKeys (some (m + 1)) s failed (key :: rest)
            = FileSystemStore.deleteLoop allKeys (some m) s1 failed rest := by
          simp [FileSystemStore.deleteLoop, ctxNow, ctxDec, hdel]
        rw [hstep, ih m s1 failed hlt]
        simp [List.take_succ_cons, fsFailures, hdel]
      | some e =>
        by_cases he : e = .blobNotFound
        · have hstep : FileSystemStore.deleteLoop allKeys (some (m + 1)) s failed (key :: rest)
              = FileSystemStore.deleteLoop allKeys (some m) s1 failed rest := by
            simp [FileSystemStore.deleteLoop, ctxNow, ctxDec, hdel, he]
          rw [hstep, ih m s1 failed hlt]
          simp [List.take_succ_cons, fsFailures, hdel, he]
        · have hstep : FileSystemStore.deleteLoop allKeys (some (m + 1)) s failed (key :: rest)
              = FileSystemStore.deleteLoop allKeys (some m) s1 (failed ++ [key]) rest := by
            simp [FileSystemStore.deleteLoop, ctxNow, ctxDec, hdel, he]
          rw [hstep, ih m s1 (failed ++ [key]) hlt]
          simp [List.take_succ_cons, fsFailures, hdel, he]

/-- C9: if the cancellation check inside the local `DeleteMultiple`
observes a cancelled context before iteration `k` (strictly inside the key
list), the returned failed-keys list is the failures accumulated over the
first `k` keys followed by *every* key of the entire input slice —
including keys already deleted successfully — and the paired error is the
context's error, not a `DeleteFailed` aggregate. -/
theorem c9_cancel_appends_all_keys (s : FsState) (keys : List String) (k : Nat)
    (hk : k < keys.length) :
    (FileSystemStore.DeleteMultiple s (some k) keys).1 =
      (fsFailures s (keys.take k) ++ keys, some .ctxCanceled)
    ∧ ∀ x ∈ keys, x ∈ (FileSystemStore.DeleteMultiple s (some k) keys).1.1 := by
  have hne : keys ≠ [] := by
    intro h
    rw [h] at hk
    simp at hk
  have hmain := deleteLoop_cancel_fst keys keys k s [] hk
  have h1 : (FileSystemStore.DeleteMultiple s (some k) keys).1 =
      (fsFailures s (keys.take k) ++ keys, some .ctxCanceled) := by
    simpa [FileSystemStore.DeleteMultiple, hne] using hmain
  refine ⟨h1, fun x hx => ?_⟩
  rw [h1]
  exact List.mem_append_right _ hx

/-- Closed instance of `c9_cancel_appends_all_keys`: the first key fails
(invalid), the second is deleted successfully, then the context fires —
the result repeats the failure and the whole slice, with the context
error. -/
theorem c9_cancel_appends_all_keys_witness :
    2 < (["../x", "b", "c"] : List String).length ∧
    ((FileSystemStore.DeleteMultiple ⟨[("b", [1])], []⟩ (some 2) ["../x", "b", "c"]).1 =
        (fsFailures ⟨[("b", [1])], []⟩ ((["../x", "b", "c"] : List String).take 2)
            ++ ["../x", "b", "c"], some .ctxCanceled)
    ∧ ∀ x ∈ (["../x", "b", "c"] : List String),
        x ∈ (FileSystemStore.DeleteMultiple ⟨[("b", [1])], []⟩ (some 2)
          ["../x", "b", "c"]).1.1) :=
  ⟨by decide,
    c9_cancel_appends_all_keys ⟨[("b", [1])], []⟩ ["../x", "b", "c"] 2 (by decide)⟩

/-! ## C8 — error normalization at the networked boundary -/

/-- C8: `isNotFoundError` recognizes exactly the five backend-specific
not-found shapes (API codes `NotFound`, `NoSuchKey`, `404`, and the typed
`NotFound` / `NoSuchKey` errors); `Download`/`GetObject` normalize those to
the single `NotFound` condition and wrap every other failure as
`DownloadFailed`; `Upload` and `Delete` wrap their failures as
`UploadFailed` / `DeleteFailed`; in each case the underlying cause is
retained inside the wrapper and no backend-native error is surfaced raw. -/
theorem c8_not_found_normalization (e : S3ApiErr) (key : String) (b : List Nat)
    (n : Int) (hk : key ≠ "") :
    (S3Store.isNotFoundError e = true ↔
      (e = .api ("NotFound") ∨ e = .api ("NoSuchKey") ∨ e = .api ("404") ∨
       e = .typedNotFound ∨ e = .typedNoSuchKey))
    ∧ (S3Store.Download (.error e) key).1 =
        .error (if S3Store.isNotFoundError e then .blobNotFound else .downloadFailed e)
    ∧ (S3Store.GetObject (.error e) key).1 =
        .error (if S3Store.isNotFoundError e then .blobNotFound else .downloadFailed e)
    ∧ (S3Store.Upload (.error e) ⟨key, some b, "", []⟩).1 = .error (.uploadFailed e)
    ∧ (S3Store.Delete (.error e) key).1 = some (.deleteFailed (some e))
    ∧ (S3Store.Download (.ok n) key).1 = .ok n := by
  refine ⟨?_, ?_, ?_, ?_, ?_, ?_⟩
  · cases e <;> simp [S3Store.isNotFoundError, or_assoc]
  · by_cases hnf : S3Store.isNotFoundError e <;>
      simp [S3Store.Download, hk, hnf]
  · by_cases hnf : S3Store.isNotFoundError e <;>
      simp [S3Store.GetObject, hk, hnf]
  · simp [S3Store.Upload, hk]
  · simp [S3Store.Delete, hk]
  · simp [S3Store.Download, hk]

/-- Closed instance of `c8_not_found_normalization` at the typed
`NoSuchKey` shape. -/
theorem c8_not_found_normalization_witness :
    ("k" : String) ≠ "" ∧
    ((S3Store.isNotFoundError .typedNoSuchKey = true ↔
      (S3ApiErr.typedNoSuchKey = .api ("NotFound") ∨
       S3ApiErr.typedNoSuchKey = .api ("NoSuchKey") ∨
       S3ApiErr.typedNoSuchKey = .api ("404") ∨
       S3ApiErr.typedNoSuchKey = .typedNotFound ∨
       S3ApiErr.typedNoSuchKey = .typedNoSuchKey))
    ∧ (S3Store.Download (.error .typedNoSuchKey) ("k")).1 =
        .error (if S3Store.isNotFoundError .typedNoSuchKey then .blobNotFound
          else .downloadFailed .typedNoSuchKey)
    ∧ (S3Store.GetObject (.error .typedNoSuchKey) ("k")).1 =
        .error (if S3Store.isNotFoundError .typedNoSuchKey then .blobNotFound
          else .downloadFailed .typedNoSuchKey)
    ∧ (S3Store.Upload (.error .typedNoSuchKey) ⟨"k", some [7], "", []⟩).1 =
        .error (.uploadFailed .typedNoSuchKey)
    ∧ (S3Store.Delete (.error .typedNoSuchKey) ("k")).1 =
        some (.deleteFailed (some .typedNoSuchKey))
    ∧ (S3Store.Download (.ok 9) ("k")).1 = .ok 9) :=
  ⟨by decide, c8_not_found_normalization .typedNoSuchKey ("k") [7] 9 (by decide)⟩

/-! ## C10 — NextMarker semantics -/

theorem withLastMarker_marker {objs : List ObjectInfo} {t : Bool} {o : ObjectInfo}
    (h : objs.getLast? = some o) : (withLastMarker objs t).nextMarker = o.key := by
  simp [withLastMarker, h]

/-- C10: on both backends, whenever `List` returns a non-empty page,
`NextMarker` is the key of the last returned object — independently of
`IsTruncated` (the server flag is passed through untouched on the
networked backend, and the local backend computes it separately).  In
particular a store holding one object under the default page size returns
`IsTruncated = false` together with the non-empty marker `"k"`, on both
backends, so a non-empty `NextMarker` does not indicate that further
results exist. -/
theorem c10_next_marker_last_key (files : List (String × List Nat))
    (input : ListInput) (resp : S3ListResponse) (o1 o2 : ObjectInfo)
    (h1 : (FileSystemStore.List files none input).objects.getLast? = some o1)
    (h2 : (S3Store.listOk resp).objects.getLast? = some o2) :
    (FileSystemStore.List files none input).nextMarker = o1.key
    ∧ (S3Store.listOk resp).nextMarker = o2.key
    ∧ FileSystemStore.List [("k", [1])] none ⟨"", 0, ""⟩ =
        ⟨[⟨"k", 1, "application/octet-stream", ""⟩], false, "k"⟩
    ∧ S3Store.List (.ok ⟨[⟨"k", 1, "e1"⟩], false⟩) ⟨"", 0, ""⟩ =
        .ok ⟨[⟨"k", 1, "", "e1"⟩], false, "k"⟩ :=
  ⟨withLastMarker_marker h1, withLastMarker_marker h2, by decide, rfl⟩

/-- Closed instance of `c10_next_marker_last_key`. -/
theorem c10_next_marker_last_key_witness :
    (FileSystemStore.List [("k", [1])] none ⟨"", 0, ""⟩).objects.getLast? =
        some ⟨"k", 1, "application/octet-stream", ""⟩
    ∧ (S3Store.listOk ⟨[⟨"k", 1, "e1"⟩], false⟩).objects.getLast? =
        some ⟨"k", 1, "", "e1"⟩
    ∧ ((FileSystemStore.List [("k", [1])] none ⟨"", 0, ""⟩).nextMarker =
        ObjectInfo.key ⟨"k", 1, "application/octet-stream", ""⟩
    ∧ (S3Store.listOk ⟨[⟨"k", 1, "e1"⟩], false⟩).nextMarker =
        ObjectInfo.key ⟨"k", 1, "", "e1"⟩
    ∧ FileSystemStore.List [("k", [1])] none ⟨"", 0, ""⟩ =
        ⟨[⟨"k", 1, "application/octet-stream", ""⟩], false, "k"⟩
    ∧ S3Store.List (.ok ⟨[⟨"k", 1, "e1"⟩], false⟩) ⟨"", 0, ""⟩ =
        .ok ⟨[⟨"k", 1, "", "e1"⟩], false, "k"⟩) :=
  ⟨by decide, by decide,
    c10_next_marker_last_key [("k", [1])] ⟨"", 0, ""⟩ ⟨[⟨"k", 1, "e1"⟩], false⟩
      ⟨"k", 1, "application/octet-stream", ""⟩ ⟨"k", 1, "", "e1"⟩
      (by decide) (by decide)⟩

/-! ## C3 — List collects, sorts, then truncates -/

theorem listFilterEntry_key {pfx sa : String} {kv : String × List Nat}
    {o : ObjectInfo} (h : listFilterEntry pfx sa kv = some o) : o.key = kv.1 := by
  unfold listFilterEntry at h
  split at h
  · exact absurd h (by simp)
  · split at h
    · exact absurd h (by simp)
    · cases h
      rfl

/-- The keys of the filtered objects form a sublist of the walked keys. -/
theorem listFilter_keys_sublist (pfx sa : String) :
    ∀ files : List (String × List Nat),
      ((listFilter pfx sa files).map ObjectInfo.key).Sublist (files.map Prod.fst) := by
  intro files
  induction files with
  | nil => simp [listFilter]
  | cons kv rest ih =>
    cases hfa : listFilterEntry pfx sa kv with
    | none =>
      simp only [listFilter, List.filterMap_cons, hfa, List.map_cons]
      exact ih.cons kv.1
    | some o =>
      have hkey := listFilterEntry_key hfa
      simp only [listFilter, List.filterMap_cons, hfa, List.map_cons, hkey]
      exact ih.cons₂ kv.1

theorem objLt_of_objLe_ne {a b : ObjectInfo} (h : objLe a b) (hne : a.key ≠ b.key) :
    objLt a b := by
  refine lt_of_le_of_ne h fun hdata => hne (strData_inj hdata)

/-- A page sorted weakly by key with pairwise-distinct keys is sorted
strictly. -/
theorem sorted_objLt_of {l : List ObjectInfo} (hs : l.Sorted objLe)
    (hnd : (l.map ObjectInfo.key).Nodup) : l.Sorted objLt := by
  have hne : l.Pairwise fun a b => a.key ≠ b.key := List.pairwise_map.mp hnd
  exact (hs.and hne).imp fun h => objLt_of_objLe_ne h.1 h.2

/-- Sorting is invariant under permutations of the walk order when the
walked keys are distinct — the formal content of "collect the *complete*
filtered set, sort, then truncate". -/
theorem insertionSort_eq_of_perm (F1 F2 : List ObjectInfo) (hp : F1.Perm F2)
    (hnd : (F1.map ObjectInfo.key).Nodup) :
    List.insertionSort objLe F1 = List.insertionSort objLe F2 := by
  have hperm : (List.insertionSort objLe F1).Perm (List.insertionSort objLe F2) :=
    (List.perm_insertionSort objLe F1).trans
      (hp.trans (List.perm_insertionSort objLe F2).symm)
  have hnd1 : ((List.insertionSort objLe F1).map ObjectInfo.key).Nodup :=
    (((List.perm_insertionSort objLe F1).map ObjectInfo.key).nodup_iff).mpr hnd
  have hnd2 : ((List.insertionSort objLe F2).map ObjectInfo.key).Nodup :=
    ((hperm.map ObjectInfo.key).nodup_iff).mp hnd1
  exact List.eq_of_perm_of_sorted hperm
    (sorted_objLt_of (List.sorted_insertionSort objLe F1) hnd1)
    (sorted_objLt_of (List.sorted_insertionSort objLe F2) hnd2)

theorem effMaxKeys_pos (mk : Int) : 0 < effMaxKeys mk := by
  unfold effMaxKeys
  split <;> omega

/-- C3: `FileSystemStore.List` collects the complete filtered set (so its
result is independent of the walk order when keys are distinct), sorts it
ascending by key, and only then truncates to `maxKeys` (default 1000 when
`maxKeys <= 0`), with `isTruncated` true iff matches remain beyond the
cutoff and `nextMarker` the last returned key; in particular with objects
`a/1`..`a/5` walked out of order, `List(prefix="a/", maxKeys=2)` returns
exactly `[a/1, a/2]` with `isTruncated = true` and `nextMarker = "a/2"`,
and `List(prefix="a/", startAfter="a/2")` returns `[a/3, a/4, a/5]`. -/
theorem c3_list_collect_sort_truncate
    (files files2 : List (String × List Nat)) (input : ListInput)
    (hp : files.Perm files2) (hnd : (files.map Prod.fst).Nodup) :
    FileSystemStore.List files none input = FileSystemStore.List files2 none input
    ∧ (FileSystemStore.List files none input).objects =
        (List.insertionSort objLe (listFilter input.pfx input.startAfter files)).take
          (effMaxKeys input.maxKeys).toNat
    ∧ (FileSystemStore.List files none input).objects.Sorted objLe
    ∧ ((FileSystemStore.List files none input).isTruncated = true ↔
        ((listFilter input.pfx input.startAfter files).length : Int) >
          effMaxKeys input.maxKeys)
    ∧ (∀ o, (FileSystemStore.List files none input).objects.getLast? = some o →
        (FileSystemStore.List files none input).nextMarker = o.key)
    ∧ FileSystemStore.List
        [("a/3", [51]), ("a/1", [49]), ("a/5", [53]), ("a/2", [50]), ("a/4", [52])]
        none ⟨"a/", 2, ""⟩ =
        ⟨[⟨"a/1", 1, "application/octet-stream", ""⟩,
          ⟨"a/2", 1, "application/octet-stream", ""⟩], true, "a/2"⟩
    ∧ FileSystemStore.List
        [("a/3", [51]), ("a/1", [49]), ("a/5", [53]), ("a/2", [50]), ("a/4", [52])]
        none ⟨"a/", 0, "a/2"⟩ =
        ⟨[⟨"a/3", 1, "application/octet-stream", ""⟩,
          ⟨"a/4", 1, "application/octet-stream", ""⟩,
          ⟨"a/5", 1, "application/octet-stream", ""⟩], false, "a/5"⟩ := by
  have hfp : (listFilter input.pfx input.startAfter files).Perm
      (listFilter input.pfx input.startAfter files2) :=
    hp.filterMap _
  have hndF : ((listFilter input.pfx input.startAfter files).map ObjectInfo.key).Nodup :=
    hnd.sublist (listFilter_keys_sublist input.pfx input.startAfter files)
  have hsorteq := insertionSort_eq_of_perm _ _ hfp hndF
  refine ⟨?_, ?_, ?_, ?_, ?_, by decide, by decide⟩
  · simp only [FileSystemStore.List]
    rw [hsorteq]
  · simp only [FileSystemStore.List, withLastMarker]
    split
    · rfl
    · rename_i hfalse
      have hle : ((List.insertionSort objLe
          (listFilter input.pfx input.startAfter files)).length : Int) ≤
            effMaxKeys input.maxKeys := by
        simpa using hfalse
      have hpos := effMaxKeys_pos input.maxKeys
      rw [List.take_of_length_le (by omega)]
  · simp only [FileSystemStore.List, withLastMarker]
    split
    · exact List.Pairwise.sublist (List.take_sublist _ _)
        (List.sorted_insertionSort objLe _)
    · exact List.sorted_insertionSort objLe _
  · simp only [FileSystemStore.List, withLastMarker, List.length_insertionSort,
      decide_eq_true_eq]
  · intro o h
    exact withLastMarker_marker h

/-- Closed instance of `c3_list_collect_sort_truncate`, with the walk order
reversed as the permuted second store. -/
theorem c3_list_collect_sort_truncate_witness :
    ((([("a/3", [51]), ("a/1", [49]), ("a/5", [53]), ("a/2", [50]), ("a/4", [52])] :
        List (String × List Nat)).map Prod.fst).Nodup)
    ∧ (FileSystemStore.List
        [("a/3", [51]), ("a/1", [49]), ("a/5", [53]), ("a/2", [50]), ("a/4", [52])]
        none ⟨"a/", 2, ""⟩ =
      FileSystemStore.List
        ([("a/3", [51]), ("a/1", [49]), ("a/5", [53]), ("a/2", [50]), ("a/4", [52])] :
          List (String × List Nat)).reverse
        none ⟨"a/", 2, ""⟩
    ∧ (FileSystemStore.List
        [("a/3", [51]), ("a/1", [49]), ("a/5", [53]), ("a/2", [50]), ("a/4", [52])]
        none ⟨"a/", 2, ""⟩).objects =
        (List.insertionSort objLe (listFilter ("a/") ("")
          [("a/3", [51]), ("a/1", [49]), ("a/5", [53]), ("a/2", [50]), ("a/4", [52])])).take
          (effMaxKeys 2).toNat
    ∧ (FileSystemStore.List
        [("a/3", [51]), ("a/1", [49]), ("a/5", [53]), ("a/2", [50]), ("a/4", [52])]
        none ⟨"a/", 2, ""⟩).objects.Sorted objLe
    ∧ ((FileSystemStore.List
        [("a/3", [51]), ("a/1", [49]), ("a/5", [53]), ("a/2", [50]), ("a/4", [52])]
        none ⟨"a/", 2, ""⟩).isTruncated = true ↔
        ((listFilter ("a/") ("")
          [("a/3", [51]), ("a/1", [49]), ("a/5", [53]), ("a/2", [50]), ("a/4", [52])]).length
            : Int) > effMaxKeys 2)
    ∧ (∀ o, (FileSystemStore.List
        [("a/3", [51]), ("a/1", [49]), ("a/5", [53]), ("a/2", [50]), ("a/4", [52])]
        none ⟨"a/", 2, ""⟩).objects.getLast? = some o →
        (FileSystemStore.List
          [("a/3", [51]), ("a/1", [49]), ("a/5", [53]), ("a/2", [50]), ("a/4", [52])]
          none ⟨"a/", 2, ""⟩).nextMarker = o.key)
    ∧ FileSystemStore.List
        [("a/3", [51]), ("a/1", [49]), ("a/5", [53]), ("a/2", [50]), ("a/4", [52])]
        none ⟨"a/", 2, ""⟩ =
        ⟨[⟨"a/1", 1, "application/octet-stream", ""⟩,
          ⟨"a/2", 1, "application/octet-stream", ""⟩], true, "a/2"⟩
    ∧ FileSystemStore.List
        [("a/3", [51]), ("a/1", [49]), ("a/5", [53]), ("a/2", [50]), ("a/4", [52])]
        none ⟨"a/", 0, "a/2"⟩ =
        ⟨[⟨"a/3", 1, "application/octet-stream", ""⟩,
          ⟨"a/4", 1, "application/octet-stream", ""⟩,
          ⟨"a/5", 1, "application/octet-stream", ""⟩], false, "a/5"⟩) :=
  ⟨by decide,
    c3_list_collect_sort_truncate
      [("a/3", [51]), ("a/1", [49]), ("a/5", [53]), ("a/2", [50]), ("a/4", [52])]
      ([("a/3", [51]), ("a/1", [49]), ("a/5", [53]), ("a/2", [50]), ("a/4", [52])] :
        List (String × List Nat)).reverse
      ⟨"a/", 2, ""⟩
      (List.reverse_perm _).symm (by decide)⟩
